import Mathlib

/-!
Shallow embedding of the currency-normalization core of
"Geano's GDSA Exchange Office" (src/unnamed/part_000, the later of the two
near-duplicate script variants; src/scripts/auto-money-converter.js agrees on
every function modelled here except that it lacks the `manual` parameter).

JavaScript numeric semantics relevant here: `Math.floor(a / b)` on integers is
floor division (`Int.fdiv`), while the `%` operator is the truncated remainder
whose sign follows the dividend (`Int.tmod`).  `money.gold || 0` yields 0 when
the field is absent (and is the field's value for any nonzero integer, and 0
for 0), so absent-or-present integer fields are modelled as `Option Int` with
`Option.getD 0`.
-/

namespace GdsaExchange

/-- The money record of the actor system: four coin fields, any of which may be
absent in the raw object read from the actor. -/
structure Money where
  gold : Option Int
  silver : Option Int
  copper : Option Int
  nickel : Option Int
deriving Repr, DecidableEq

/-- JS `x || 0` on an integer-or-absent field. -/
def orZero (x : Option Int) : Int := x.getD 0

/-- CONVERSION_RATES.nickel (Kreuzer, base unit). -/
def RATE_nickel : Int := 1
/-- CONVERSION_RATES.copper (Heller). -/
def RATE_copper : Int := 10
/-- CONVERSION_RATES.silver (Silber). -/
def RATE_silver : Int := 100
/-- CONVERSION_RATES.gold (Dukaten). -/
def RATE_gold : Int := 1000

/-- `DSAMoneyConverter.toBaseUnit` (part_000 lines 26-31): total value in
Kreuzern, each field defaulted to 0 by `|| 0`. -/
def toBaseUnit (money : Money) : Int :=
  orZero money.gold * RATE_gold +
    orZero money.silver * RATE_silver +
    orZero money.copper * RATE_copper +
    orZero money.nickel * RATE_nickel

/-- `DSAMoneyConverter.fromBaseUnit` (part_000 lines 38-53): successive
`Math.floor(remaining / rate)` (floor division) and `remaining % rate`
(JS truncated remainder, `Int.tmod`). -/
def fromBaseUnit (totalNickel : Int) : Money :=
  let remaining0 := totalNickel
  let gold := Int.fdiv remaining0 RATE_gold
  let remaining1 := Int.tmod remaining0 RATE_gold
  let silver := Int.fdiv remaining1 RATE_silver
  let remaining2 := Int.tmod remaining1 RATE_silver
  let copper := Int.fdiv remaining2 RATE_copper
  let remaining3 := Int.tmod remaining2 RATE_copper
  let nickel := remaining3
  { gold := some gold, silver := some silver, copper := some copper,
    nickel := some nickel }

/-- `DSAMoneyConverter.optimizeMoney` (part_000 lines 60-63). -/
def optimizeMoney (money : Money) : Money :=
  fromBaseUnit (toBaseUnit money)

/-- `DSAMoneyConverter.needsOptimization` (part_000 lines 70-83). -/
def needsOptimization (money : Money) : Bool :=
  let cgold := orZero money.gold
  let csilver := orZero money.silver
  let ccopper := orZero money.copper
  let cnickel := orZero money.nickel
  if cnickel ≥ 10 ∨ ccopper ≥ 10 ∨ csilver ≥ 10 then true
  else if cnickel < 0 ∨ ccopper < 0 ∨ csilver < 0 ∨ cgold < 0 then true
  else false

/- ## Helper lemmas about the decomposition -/

/-- For a non-negative total, the floor/truncated mixture in `fromBaseUnit`
collapses to ordinary Euclidean division and remainder. -/
lemma fromBaseUnit_of_nonneg (n : Int) (hn : 0 ≤ n) :
    fromBaseUnit n =
      { gold := some (n / 1000), silver := some (n % 1000 / 100),
        copper := some (n % 1000 % 100 / 10),
        nickel := some (n % 1000 % 100 % 10) } := by
  have h1 : (0 : Int) ≤ n % 1000 := Int.emod_nonneg n (by decide)
  have h2 : (0 : Int) ≤ n % 1000 % 100 := Int.emod_nonneg _ (by decide)
  simp only [fromBaseUnit, RATE_gold, RATE_silver, RATE_copper]
  rw [Int.fdiv_eq_ediv _ (by decide), Int.tmod_eq_emod hn (by decide)]
  rw [Int.fdiv_eq_ediv _ (by decide), Int.tmod_eq_emod h1 (by decide)]
  rw [Int.fdiv_eq_ediv _ (by decide), Int.tmod_eq_emod h2 (by decide)]

/-- Round trip on non-negative totals (shared helper). -/
lemma roundtrip_nonneg (n : Int) (hn : 0 ≤ n) :
    toBaseUnit (fromBaseUnit n) = n := by
  rw [fromBaseUnit_of_nonneg n hn]
  simp only [toBaseUnit, orZero, Option.getD_some, RATE_gold, RATE_silver,
    RATE_copper, RATE_nickel]
  omega

/-- When `needsOptimization` is false, the defaulted fields are a canonical
digit decomposition and the total is non-negative (shared helper). -/
lemma ranges_of_not_needsOptimization (m : Money)
    (h : needsOptimization m = false) :
    0 ≤ orZero m.gold ∧
    0 ≤ orZero m.silver ∧ orZero m.silver ≤ 9 ∧
    0 ≤ orZero m.copper ∧ orZero m.copper ≤ 9 ∧
    0 ≤ orZero m.nickel ∧ orZero m.nickel ≤ 9 := by
  simp only [needsOptimization] at h
  split at h
  · simp at h
  · split at h
    · simp at h
    · omega

/-- A record that does not need optimization has a non-negative total
(shared helper). -/
lemma toBaseUnit_nonneg_of_not_needsOptimization (m : Money)
    (h : needsOptimization m = false) : 0 ≤ toBaseUnit m := by
  obtain ⟨hg, hs0, hs9, hc0, hc9, hn0, hn9⟩ := ranges_of_not_needsOptimization m h
  unfold toBaseUnit RATE_gold RATE_silver RATE_copper RATE_nickel
  nlinarith

/- ## The apply-step (performConversion), effects made explicit

`performConversion` (part_000 lines 106-151) reads the actor's current money,
optionally returns early, and performs at most one tagged write plus at most
one notification.  The host environment is passed in explicitly: the resolved
actor (`none` when `game.actors.get` fails), the `showNotifications` setting,
and the `manual` flag.  Its first statement, `updateTimers.delete(actorId)`,
is timer bookkeeping and is modelled in the scheduler section below. -/

/-- Observable effects of one `performConversion` call: the tagged
`actor.update` write (if any, always carrying `gdsa_autoconvert: true`) and
which notifications were shown. -/
structure ConvEffects where
  write : Option Money
  warnInsufficientFunds : Bool
  infoOptimized : Bool
  infoAlreadyOptimized : Bool
deriving Repr, DecidableEq

/-- No write, no notification. -/
def noEffects : ConvEffects :=
  { write := none, warnInsufficientFunds := false, infoOptimized := false,
    infoAlreadyOptimized := false }

/-- The all-zero record written on the insufficient-funds path
(part_000 line 127). -/
def zeroMoney : Money :=
  { gold := some 0, silver := some 0, copper := some 0, nickel := some 0 }

/-- `DSAMoneyConverter.performConversion` (part_000 lines 106-151), minus the
timer deletion modelled separately.  Field comparisons use JS `!==`, under
which a present `0` differs from an absent field (`0 !== undefined`), matching
`some 0 ≠ none` on `Option Int`. -/
def performConversion (showNotifications : Bool) (actor : Option Money)
    (manual : Bool) : ConvEffects :=
  match actor with
  | none => noEffects
  | some currentMoney =>
    if !manual && !needsOptimization currentMoney then noEffects
    else
      let optimized := optimizeMoney currentMoney
      let total := toBaseUnit optimized
      if total < 0 then
        { write := some zeroMoney,
          warnInsufficientFunds := showNotifications || manual,
          infoOptimized := false, infoAlreadyOptimized := false }
      else if manual = true ∨ optimized.gold ≠ currentMoney.gold ∨
          optimized.silver ≠ currentMoney.silver ∨
          optimized.copper ≠ currentMoney.copper ∨
          optimized.nickel ≠ currentMoney.nickel then
        { write := some optimized, warnInsufficientFunds := false,
          infoOptimized := showNotifications || manual,
          infoAlreadyOptimized := false }
      else if manual = true then
        { write := none, warnInsufficientFunds := false,
          infoOptimized := false, infoAlreadyOptimized := true }
      else noEffects

/- ## The update coalescer (scheduleConversion / updateTimers)

Timer state of the host event loop: `updateTimers` is the per-actor Map from
id to timer handle, `pendingTimers` is the set of timers that have been
created by `setTimeout` and neither cancelled by `clearTimeout` nor fired
(each paired with the actor id its callback will convert), and `nextHandle`
issues fresh handles. -/

structure SchedState where
  updateTimers : String → Option Nat
  pendingTimers : List (Nat × String)
  nextHandle : Nat

/-- State before any notification arrived: empty Map, no timers. -/
def initState : SchedState :=
  { updateTimers := fun _ => none, pendingTimers := [], nextHandle := 0 }

/-- `clearTimeout(handle)`: the timer no longer fires. -/
def clearTimeoutS (s : SchedState) (h : Nat) : SchedState :=
  { s with pendingTimers := s.pendingTimers.filter (fun p => p.1 ≠ h) }

/-- `DSAMoneyConverter.scheduleConversion` (part_000 lines 89-99): cancel the
actor's previous timer if the Map has one, `setTimeout` a fresh timer, store
its handle in the Map. -/
def scheduleConversion (s : SchedState) (actorId : String) : SchedState :=
  let s1 :=
    match s.updateTimers actorId with
    | some h => clearTimeoutS s h
    | none => s
  let timer := s1.nextHandle
  { updateTimers := fun id =>
      if id = actorId then some timer else s1.updateTimers id,
    pendingTimers := (timer, actorId) :: s1.pendingTimers,
    nextHandle := timer + 1 }

/-- A pending timer fires: the host removes it from the pending set and runs
its callback `performConversion(actorId)`, whose first statement
`updateTimers.delete(actorId)` (part_000 line 107) removes the Map entry. -/
def fireTimer (s : SchedState) (h : Nat) (actorId : String) : SchedState :=
  { updateTimers := fun id => if id = actorId then none else s.updateTimers id,
    pendingTimers := s.pendingTimers.filter (fun p => p.1 ≠ h),
    nextHandle := s.nextHandle }

/-- A manual trigger: `promptManualExchange` (part_000 line 164) calls
`performConversion(actor.id, true)` directly, bypassing the scheduler.  Its
first statement `updateTimers.delete(actorId)` (part_000 line 107) removes
the Map entry WITHOUT any `clearTimeout`, so a pending timer for the id stays
pending while its Map entry vanishes. -/
def manualPerform (s : SchedState) (actorId : String) : SchedState :=
  { updateTimers := fun id => if id = actorId then none else s.updateTimers id,
    pendingTimers := s.pendingTimers,
    nextHandle := s.nextHandle }

/-- States the scheduler can reach in the full program: from the initial
state, by notifications (`scheduleConversion`), by pending timers firing, and
by manual triggers (`manualPerform`). -/
inductive Reachable : SchedState → Prop
  | init : Reachable initState
  | schedule (s : SchedState) (actorId : String) :
      Reachable s → Reachable (scheduleConversion s actorId)
  | fire (s : SchedState) (h : Nat) (actorId : String) :
      Reachable s → (h, actorId) ∈ s.pendingTimers →
      Reachable (fireTimer s h actorId)
  | manual (s : SchedState) (actorId : String) :
      Reachable s → Reachable (manualPerform s actorId)

/-- States the scheduler can reach through the automatic debounce path alone:
notifications and timer firings, with no manual trigger. -/
inductive AutoReachable : SchedState → Prop
  | init : AutoReachable initState
  | schedule (s : SchedState) (actorId : String) :
      AutoReachable s → AutoReachable (scheduleConversion s actorId)
  | fire (s : SchedState) (h : Nat) (actorId : String) :
      AutoReachable s → (h, actorId) ∈ s.pendingTimers →
      AutoReachable (fireTimer s h actorId)

/-- Scheduler invariant: every pending timer is the one recorded in the Map
for its actor; Map handles are below the fresh counter and distinct across
actors; pending handles are pairwise distinct. -/
def SchedInv (s : SchedState) : Prop :=
  (∀ h actorId, (h, actorId) ∈ s.pendingTimers →
    s.updateTimers actorId = some h) ∧
  (∀ actorId h, s.updateTimers actorId = some h → h < s.nextHandle) ∧
  (∀ id1 id2 h, s.updateTimers id1 = some h → s.updateTimers id2 = some h →
    id1 = id2) ∧
  s.pendingTimers.Pairwise (fun a b => a.1 ≠ b.1)

lemma schedInv_init : SchedInv initState := by
  refine ⟨?_, ?_, ?_, ?_⟩ <;> simp [initState]

lemma schedInv_schedule (s : SchedState) (actorId : String)
    (hinv : SchedInv s) : SchedInv (scheduleConversion s actorId) := by
  obtain ⟨h1, h2, h3, h4⟩ := hinv
  cases hlk : s.updateTimers actorId with
  | none =>
    simp only [scheduleConversion, hlk]
    refine ⟨?_, ?_, ?_, ?_⟩
    · intro h id hmem
      rcases List.mem_cons.mp hmem with heq | hmem2
      · cases heq
        simp
      · have := h1 h id hmem2
        have hne : id ≠ actorId := by
          intro he; rw [he, hlk] at this; exact Option.noConfusion this
        simpa [hne] using this
    · intro id h hm
      dsimp only at hm ⊢
      split at hm
      · injection hm with hinj
        omega
      · have := h2 id h hm
        omega
    · intro id1 id2 h hm1 hm2
      by_cases hi1 : id1 = actorId <;> by_cases hi2 : id2 = actorId
      · rw [hi1, hi2]
      · simp only [hi1, if_pos rfl] at hm1
        simp only [if_neg hi2] at hm2
        have := h2 id2 h hm2
        cases hm1
        omega
      · simp only [if_neg hi1] at hm1
        simp only [hi2, if_pos rfl] at hm2
        have := h2 id1 h hm1
        cases hm2
        omega
      · simp only [if_neg hi1] at hm1
        simp only [if_neg hi2] at hm2
        exact h3 id1 id2 h hm1 hm2
    · refine List.pairwise_cons.mpr ⟨?_, h4⟩
      intro e he
      have := h1 e.1 e.2 he
      have := h2 e.2 e.1 this
      omega
  | some hOld =>
    simp only [scheduleConversion, hlk, clearTimeoutS]
    refine ⟨?_, ?_, ?_, ?_⟩
    · intro h id hmem
      rcases List.mem_cons.mp hmem with heq | hmem2
      · cases heq
        simp
      · have hmem3 := List.mem_filter.mp hmem2
        have := h1 h id hmem3.1
        have hne : id ≠ actorId := by
          intro he
          rw [he, hlk] at this
          have : h = hOld := by
            injection this with hinj
            exact hinj.symm
          simp [this] at hmem3
        simpa [hne] using this
    · intro id h hm
      dsimp only at hm ⊢
      split at hm
      · injection hm with hinj
        omega
      · have := h2 id h hm
        omega
    · intro id1 id2 h hm1 hm2
      by_cases hi1 : id1 = actorId <;> by_cases hi2 : id2 = actorId
      · rw [hi1, hi2]
      · simp only [hi1, if_pos rfl] at hm1
        simp only [if_neg hi2] at hm2
        have := h2 id2 h hm2
        cases hm1
        omega
      · simp only [if_neg hi1] at hm1
        simp only [hi2, if_pos rfl] at hm2
        have := h2 id1 h hm1
        cases hm2
        omega
      · simp only [if_neg hi1] at hm1
        simp only [if_neg hi2] at hm2
        exact h3 id1 id2 h hm1 hm2
    · refine List.pairwise_cons.mpr ⟨?_, List.Pairwise.filter _ h4⟩
      intro e he
      have he2 := (List.mem_filter.mp he).1
      have := h1 e.1 e.2 he2
      have := h2 e.2 e.1 this
      omega

lemma schedInv_fire (s : SchedState) (h : Nat) (actorId : String)
    (hinv : SchedInv s) (hmem : (h, actorId) ∈ s.pendingTimers) :
    SchedInv (fireTimer s h actorId) := by
  obtain ⟨h1, h2, h3, h4⟩ := hinv
  have hlk : s.updateTimers actorId = some h := h1 h actorId hmem
  simp only [fireTimer]
  refine ⟨?_, ?_, ?_, ?_⟩
  · intro h' id hmem2
    have hmem3 := List.mem_filter.mp hmem2
    have hid := h1 h' id hmem3.1
    have hne : id ≠ actorId := by
      intro he
      rw [he, hlk] at hid
      have : h' = h := by
        injection hid with hinj
        exact hinj.symm
      simp [this] at hmem3
    simpa [hne] using hid
  · intro id h' hm
    by_cases hid : id = actorId
    · simp [hid] at hm
    · simp only [if_neg hid] at hm
      exact h2 id h' hm
  · intro id1 id2 h' hm1 hm2
    by_cases hi1 : id1 = actorId
    · simp [hi1] at hm1
    · by_cases hi2 : id2 = actorId
      · simp [hi2] at hm2
      · simp only [if_neg hi1] at hm1
        simp only [if_neg hi2] at hm2
        exact h3 id1 id2 h' hm1 hm2
  · exact List.Pairwise.filter _ h4

lemma schedInv_autoReachable (s : SchedState) (hs : AutoReachable s) :
    SchedInv s := by
  induction hs with
  | init => exact schedInv_init
  | schedule s actorId _ ih => exact schedInv_schedule s actorId ih
  | fire s h actorId _ hmem ih => exact schedInv_fire s h actorId ih hmem

/-- In a list of (handle, id) pairs with pairwise-distinct handles, all of
whose ids are mapped by `f` to their own handle, at most one pair carries a
given id (shared helper). -/
lemma filter_id_length_le_one (l : List (Nat × String))
    (f : String → Option Nat)
    (hpw : l.Pairwise (fun a b => a.1 ≠ b.1))
    (hf : ∀ e ∈ l, f e.2 = some e.1) (actorId : String) :
    (l.filter (fun p => p.2 = actorId)).length ≤ 1 := by
  induction l with
  | nil => simp
  | cons a t ih =>
    obtain ⟨hhead, htail⟩ := List.pairwise_cons.mp hpw
    by_cases hmatch : a.2 = actorId
    · have hnil : t.filter (fun p => p.2 = actorId) = [] := by
        rw [List.filter_eq_nil_iff]
        intro e he hpe
        have hpe2 : e.2 = actorId := by simpa using hpe
        have hfa := hf a (List.mem_cons_self a t)
        have hfe := hf e (List.mem_cons_of_mem a he)
        rw [hmatch] at hfa
        rw [hpe2] at hfe
        rw [hfa] at hfe
        have : a.1 = e.1 := by injection hfe
        exact hhead e he this
      simp [List.filter_cons, hmatch, hnil]
    · simp only [List.filter_cons, decide_eq_true_eq, hmatch, if_neg]
      exact ih htail (fun e he => hf e (List.mem_cons_of_mem a he))

/- ## The updateActor hook (part_000 lines 170-176)

The hook receives (actor, updateData, options, userId); the observable we
model is which actor id (if any) it passes to `scheduleConversion`. -/

/-- The `Hooks.on("updateActor")` callback: returns `some actorId` exactly
when it reaches `DSAMoneyConverter.scheduleConversion(actor.id)`, `none` when
one of the three guards returns early.  `hasMoneyProp` stands for
`foundry.utils.hasProperty(updateData, "system.money")`. -/
def onUpdateActor (actorType systemId : String) (hasMoneyProp : Bool)
    (optGdsaAutoconvert : Bool) (actorId : String) : Option String :=
  if optGdsaAutoconvert then none
  else if actorType ≠ "PlayerCharakter" ∨ systemId ≠ "gdsa" then none
  else if !hasMoneyProp then none
  else some actorId

/- ## Sample records for concrete witnesses -/

/-- {gold:0, silver:0, copper:0, nickel:-5}, spec Scenario C. -/
def negFiveNickel : Money :=
  { gold := some 0, silver := some 0, copper := some 0, nickel := some (-5) }

/-- {gold:1, silver:0, copper:0, nickel:0}, an already-canonical record. -/
def oneGoldCanonical : Money :=
  { gold := some 1, silver := some 0, copper := some 0, nickel := some 0 }

/-- {gold:1, silver:12, copper:0, nickel:0}, spec Scenario B. -/
def goldTwelveSilver : Money :=
  { gold := some 1, silver := some 12, copper := some 0, nickel := some 0 }

/-- {gold:1, silver:2, copper:3, nickel:4}, a canonical record. -/
def canonical1234 : Money :=
  { gold := some 1, silver := some 2, copper := some 3, nickel := some 4 }

/- ## Claim theorems -/

/-- C1 (counterexample): the round trip `toBaseUnit (fromBaseUnit n) = n` is
NOT lossless for every integer; at n = -5 the code returns
{gold:-1, silver:-1, copper:-1, nickel:-5}, whose total is -1115, because JS
`Math.floor` division is paired with the truncated `%` remainder. -/
theorem roundTrip_fails_at_neg_five :
    toBaseUnit (fromBaseUnit (-5)) ≠ -5 := by decide

/-- C1 (amended): for every non-negative integer n,
`toBaseUnit (fromBaseUnit n) = n`; the round trip through the canonical
encoding is lossless on non-negative totals. -/
theorem roundTrip_nonneg (n : Int) (hn : 0 ≤ n) :
    toBaseUnit (fromBaseUnit n) = n :=
  roundtrip_nonneg n hn

/-- Witness for C1's amended theorem at n = 123456. -/
theorem roundTrip_nonneg_witness :
    0 ≤ (123456 : Int) ∧ toBaseUnit (fromBaseUnit 123456) = 123456 :=
  ⟨by decide, roundTrip_nonneg 123456 (by decide)⟩

/-- C2 (counterexample): at the negative total -5, `fromBaseUnit` returns
negative nickel, copper and silver fields, and the decomposition is not
value-preserving (it sums to -1115, not -5), contradicting the claimed
floor-division semantics with non-negative remainders. -/
theorem fromBaseUnit_neg_five_not_floor_semantics :
    orZero (fromBaseUnit (-5)).nickel < 0 ∧
    orZero (fromBaseUnit (-5)).copper < 0 ∧
    orZero (fromBaseUnit (-5)).silver < 0 ∧
    toBaseUnit (fromBaseUnit (-5)) ≠ -5 := by decide

/-- C2 (amended): for every negative total, the gold field (computed by
`Math.floor`, i.e. floor division) is negative, so gold does absorb the
negative sign; but the remainders feeding silver/copper/nickel use the JS
truncated `%`, so those fields can be negative and the decomposition need not
preserve the total. -/
theorem fromBaseUnit_neg_gold_absorbs_sign (t : Int) (ht : t < 0) :
    orZero (fromBaseUnit t).gold < 0 := by
  have hgold : orZero (fromBaseUnit t).gold = Int.fdiv t 1000 := by
    simp [fromBaseUnit, orZero, RATE_gold]
  rw [hgold, Int.fdiv_eq_ediv _ (by decide)]
  omega

/-- Witness for C2's amended theorem at t = -5. -/
theorem fromBaseUnit_neg_gold_absorbs_sign_witness :
    (-5 : Int) < 0 ∧ orZero (fromBaseUnit (-5)).gold < 0 :=
  ⟨by decide, fromBaseUnit_neg_gold_absorbs_sign (-5) (by decide)⟩

/-- C3 (code evaluated at the failing input): invoking the apply-step with
manual = true on an already-canonical record {gold:1,silver:0,copper:0,
nickel:0} performs a tagged write of the unchanged record and surfaces the
"optimized" notification; the "already optimized" message does NOT surface,
because the write condition `manual || fields differ` is true whenever
`manual` is, making the `else if (manual)` branch unreachable. -/
theorem performConversion_manual_canonical_still_writes :
    performConversion false (some oneGoldCanonical) true =
      { write := some oneGoldCanonical, warnInsufficientFunds := false,
        infoOptimized := true, infoAlreadyOptimized := false } := by decide

/-- C4: whenever the apply-step computes an optimized record with negative
base-unit total, it writes the all-zero record through the tagged-write path,
warns about insufficient funds exactly when the notification setting is on or
the call is manual, and performs no ordinary optimized-record write and no
other notification. -/
theorem performConversion_negative_total_resets (showNotif manual : Bool)
    (m : Money) (hneg : toBaseUnit (optimizeMoney m) < 0) :
    performConversion showNotif (some m) manual =
      { write := some zeroMoney,
        warnInsufficientFunds := showNotif || manual,
        infoOptimized := false, infoAlreadyOptimized := false } := by
  have hneed : needsOptimization m = true := by
    cases hx : needsOptimization m
    · have h0 : 0 ≤ toBaseUnit m :=
        toBaseUnit_nonneg_of_not_needsOptimization m hx
      have hrt : toBaseUnit (optimizeMoney m) = toBaseUnit m := by
        unfold optimizeMoney
        exact roundtrip_nonneg _ h0
      omega
    · rfl
  have hcond : ¬((!manual && !needsOptimization m) = true) := by
    simp [hneed]
  simp only [performConversion]
  rw [if_neg hcond, if_pos hneg]

/-- Witness for C4 at money {0,0,0,-5}, notifications on, automatic trigger. -/
theorem performConversion_negative_total_resets_witness :
    toBaseUnit (optimizeMoney negFiveNickel) < 0 ∧
    performConversion true (some negFiveNickel) false =
      { write := some zeroMoney, warnInsufficientFunds := true,
        infoOptimized := false, infoAlreadyOptimized := false } :=
  ⟨by decide,
   performConversion_negative_total_resets true false negFiveNickel
     (by decide)⟩

/-- C5: for every non-negative total n, `fromBaseUnit n` yields nickel,
copper and silver each in [0, 9] and a non-negative gold field. -/
theorem fromBaseUnit_canonical_range (n : Int) (hn : 0 ≤ n) :
    0 ≤ orZero (fromBaseUnit n).nickel ∧ orZero (fromBaseUnit n).nickel ≤ 9 ∧
    0 ≤ orZero (fromBaseUnit n).copper ∧ orZero (fromBaseUnit n).copper ≤ 9 ∧
    0 ≤ orZero (fromBaseUnit n).silver ∧ orZero (fromBaseUnit n).silver ≤ 9 ∧
    0 ≤ orZero (fromBaseUnit n).gold := by
  rw [fromBaseUnit_of_nonneg n hn]
  simp only [orZero, Option.getD_some]
  refine ⟨?_, ?_, ?_, ?_, ?_, ?_, ?_⟩ <;> omega

/-- Witness for C5 at n = 123456. -/
theorem fromBaseUnit_canonical_range_witness :
    0 ≤ (123456 : Int) ∧
    (0 ≤ orZero (fromBaseUnit 123456).nickel ∧
     orZero (fromBaseUnit 123456).nickel ≤ 9 ∧
     0 ≤ orZero (fromBaseUnit 123456).copper ∧
     orZero (fromBaseUnit 123456).copper ≤ 9 ∧
     0 ≤ orZero (fromBaseUnit 123456).silver ∧
     orZero (fromBaseUnit 123456).silver ≤ 9 ∧
     0 ≤ orZero (fromBaseUnit 123456).gold) :=
  ⟨by decide, fromBaseUnit_canonical_range 123456 (by decide)⟩

/-- C6: `optimizeMoney` is idempotent on every money record with non-negative
base-unit total. -/
theorem optimizeMoney_idempotent (m : Money) (h : 0 ≤ toBaseUnit m) :
    optimizeMoney (optimizeMoney m) = optimizeMoney m := by
  unfold optimizeMoney
  rw [roundtrip_nonneg (toBaseUnit m) h]

/-- Witness for C6 at {gold:1, silver:12, copper:0, nickel:0}. -/
theorem optimizeMoney_idempotent_witness :
    0 ≤ toBaseUnit goldTwelveSilver ∧
    optimizeMoney (optimizeMoney goldTwelveSilver) =
      optimizeMoney goldTwelveSilver :=
  ⟨by decide, optimizeMoney_idempotent goldTwelveSilver (by decide)⟩

/-- C7: `needsOptimization` is true exactly when one of nickel/copper/silver
(defaulted to 0 when absent) is at least 10, or one of the four fields is
negative; it is a pure function of the record. -/
theorem needsOptimization_iff (m : Money) :
    needsOptimization m = true ↔
      (10 ≤ orZero m.nickel ∨ 10 ≤ orZero m.copper ∨ 10 ≤ orZero m.silver ∨
       orZero m.nickel < 0 ∨ orZero m.copper < 0 ∨ orZero m.silver < 0 ∨
       orZero m.gold < 0) := by
  simp only [needsOptimization]
  split
  · rename_i hc
    simp only [eq_self_iff_true, true_iff]
    omega
  · rename_i hc1
    split
    · rename_i hc2
      simp only [eq_self_iff_true, true_iff]
      omega
    · rename_i hc2
      simp only [Bool.false_eq_true, false_iff]
      omega

/-- C8 (counterexample): the at-most-one-pending-timer invariant does NOT
hold of every reachable scheduler state.  Concretely: a notification for "a"
schedules timer 0; a manual trigger then deletes the Map entry for "a"
(part_000 lines 164 and 107) without `clearTimeout`, leaving timer 0 pending
but untracked; a further notification for "a" finds no Map entry, cancels
nothing, and schedules timer 1 — two pending timers now target "a". -/
theorem scheduler_two_pending_after_manual :
    Reachable
      (scheduleConversion (manualPerform (scheduleConversion initState "a") "a") "a") ∧
    ((scheduleConversion (manualPerform (scheduleConversion initState "a") "a") "a").pendingTimers.filter
        (fun p => p.2 = "a")).length = 2 :=
  ⟨Reachable.schedule _ "a"
     (Reachable.manual _ "a" (Reachable.schedule _ "a" Reachable.init)),
   by decide⟩

/-- C8 (amended): in every scheduler state reachable through the automatic
debounce path alone (notifications and timer firings, no manual trigger), at
most one pending timer targets any given actor id; scheduling over an id
whose Map entry is a still-pending timer leaves that old timer cancelled (not
pending after the reschedule); and firing removes the id's Map entry.  A
manual trigger breaks the invariant, because `performConversion(actorId, true)`
deletes the Map entry without cancelling the pending timer. -/
theorem scheduler_at_most_one_pending (s : SchedState) (hs : AutoReachable s)
    (actorId : String) :
    ((s.pendingTimers.filter (fun p => p.2 = actorId)).length ≤ 1) ∧
    (∀ h, s.updateTimers actorId = some h →
      (h, actorId) ∉ (scheduleConversion s actorId).pendingTimers) ∧
    (∀ h, (fireTimer s h actorId).updateTimers actorId = none) := by
  obtain ⟨h1, h2, h3, h4⟩ := schedInv_autoReachable s hs
  refine ⟨?_, ?_, ?_⟩
  · exact filter_id_length_le_one s.pendingTimers s.updateTimers h4
      (fun e he => h1 e.1 e.2 (by simpa using he)) actorId
  · intro h hlk hmem
    simp only [scheduleConversion, hlk, clearTimeoutS] at hmem
    rcases List.mem_cons.mp hmem with heq | hmem2
    · have hh : h = s.nextHandle := congrArg Prod.fst heq
      have hlt := h2 actorId h hlk
      omega
    · have hne := (List.mem_filter.mp hmem2).2
      simp at hne
  · intro h
    simp [fireTimer]

/-- Witness for C8's amended theorem after two notifications for the same
actor id. -/
theorem scheduler_at_most_one_pending_witness :
    (((scheduleConversion (scheduleConversion initState "a") "a").pendingTimers.filter
        (fun p => p.2 = "a")).length ≤ 1) ∧
    (∀ h, (scheduleConversion (scheduleConversion initState "a") "a").updateTimers "a" = some h →
      (h, "a") ∉ (scheduleConversion (scheduleConversion (scheduleConversion initState "a") "a") "a").pendingTimers) ∧
    (∀ h, (fireTimer (scheduleConversion (scheduleConversion initState "a") "a") h "a").updateTimers "a" = none) :=
  scheduler_at_most_one_pending
    (scheduleConversion (scheduleConversion initState "a") "a")
    (AutoReachable.schedule _ "a" (AutoReachable.schedule _ "a" AutoReachable.init)) "a"

/-- C9: a change notification whose write-options carry the internal
`gdsa_autoconvert` marker never reaches `scheduleConversion` — the hook
returns before scheduling, for every actor type, system id, money-change flag
and actor id. -/
theorem hook_ignores_autoconvert_marker (actorType systemId : String)
    (hasMoneyProp : Bool) (actorId : String) :
    onUpdateActor actorType systemId hasMoneyProp true actorId = none := by
  simp [onUpdateActor]

/-- C10: a record with all four fields present that does not need
optimization is an exact fixpoint of `optimizeMoney`. -/
theorem optimizeMoney_fixpoint_of_not_needed (g s c k : Int)
    (h : needsOptimization ⟨some g, some s, some c, some k⟩ = false) :
    optimizeMoney ⟨some g, some s, some c, some k⟩ =
      (⟨some g, some s, some c, some k⟩ : Money) := by
  obtain ⟨hg, hs0, hs9, hc0, hc9, hk0, hk9⟩ :=
    ranges_of_not_needsOptimization _ h
  simp only [orZero, Option.getD_some] at hg hs0 hs9 hc0 hc9 hk0 hk9
  have htot : 0 ≤ toBaseUnit ⟨some g, some s, some c, some k⟩ :=
    toBaseUnit_nonneg_of_not_needsOptimization _ h
  have htb : toBaseUnit ⟨some g, some s, some c, some k⟩ =
      1000 * g + 100 * s + 10 * c + k := by
    simp only [toBaseUnit, orZero, Option.getD_some, RATE_gold, RATE_silver,
      RATE_copper, RATE_nickel]
    ring
  unfold optimizeMoney
  rw [fromBaseUnit_of_nonneg _ htot, htb]
  simp only [Money.mk.injEq, Option.some.injEq]
  refine ⟨?_, ?_, ?_, ?_⟩ <;> omega

/-- Witness for C10 at the canonical record {gold:1, silver:2, copper:3,
nickel:4}. -/
theorem optimizeMoney_fixpoint_of_not_needed_witness :
    needsOptimization canonical1234 = false ∧
    optimizeMoney canonical1234 = canonical1234 :=
  ⟨by decide, optimizeMoney_fixpoint_of_not_needed 1 2 3 4 (by decide)⟩

end GdsaExchange
